import Mathlib

/-!
A formal model of the cltrecipes static-site builder (`cltrecipes.py`):
recipe parsing and schema validation, the in-memory recipe store with its
insert and query operations, and the pagination/build pipeline, together
with theorems checking the specification's claims against this model.

Modelling conventions:
* TOML documents are association lists of string keys to `Toml` values
  (first binding wins, mirroring Python dict lookup).
* Machine-level I/O (glob, file reads, template rendering, output files)
  is external: the build is modelled from the list of candidate documents
  (path plus parsed table) to the list of rendered artifacts (template
  name, output file name, render context).
* Python exceptions are modelled as `Except String`: the first raised
  error aborts the remainder of the computation.
* `pickle` is an external library; it is modelled by its serialization
  contract (an opaque blob wrapping the value, `pickle_loads` the exact
  inverse of `pickle_dumps`); the store never inspects a blob.
* The build's module-level constant `TODAY_INT` is the parameter `today`
  threaded through the store operations.
-/

namespace Cltrecipes

/-- A TOML value, restricted to the forms the recipe documents use. -/
inductive Toml where
  | str (s : String)
  | int (i : Int)
  | bool (b : Bool)
  | list (items : List Toml)
  | table (kvs : List (String × Toml))

/-- A parsed TOML document: an association list from keys to values. -/
abbrev TomlTable := List (String × Toml)

/-- Dictionary lookup `t[k]` (first binding wins, as in a Python dict). -/
def tlookup (t : TomlTable) (k : String) : Option Toml :=
  match t.find? (fun p => p.1 == k) with
  | some p => some p.2
  | none => none

/-- Dictionary assignment `t[k] = v`: replaces the binding in place when the
key is present, otherwise appends it (Python dict semantics). -/
def tset (t : TomlTable) (k : String) (v : Toml) : TomlTable :=
  if t.any (fun p => p.1 == k) then
    t.map (fun p => if p.1 == k then (k, v) else p)
  else
    t ++ [(k, v)]

/-- `RECIPES_PER_PAGE` from the source. -/
def RECIPES_PER_PAGE : Nat := 10

/-- `REQUIRED_RECIPE_FIELDS`, in the source's tuple order (which is the
order the presence check iterates in). -/
def REQUIRED_RECIPE_FIELDS : List String :=
  ["title", "date_added", "author", "type", "ingredients", "directions",
   "description"]

/-- `OPTIONAL_RECIPE_FIELDS`, in the source's tuple order (which is the
order the per-field UPDATE loop iterates in). -/
def OPTIONAL_RECIPE_FIELDS : List String :=
  ["cook_time", "prep_time", "yield", "serving_size", "nutrition"]

/-- `NUTRITION_FIELDS`: the fixed controlled vocabulary of eleven
macronutrients (a set in the source; only membership is used). -/
def NUTRITION_FIELDS : List String :=
  ["calories", "total_fat", "saturated_fat", "trans_fat", "cholesterol",
   "sodium", "total_carbohydrates", "fiber", "sugars", "protein",
   "unsaturated_fat"]

/-- `os.path.basename`: the path component after the last slash (the
accumulator restarts at every `/`). -/
def basename (p : String) : String :=
  String.mk (p.data.foldl (fun acc c => if c == '/' then [] else acc ++ [c]) [])

/-- `os.path.basename(recipe_filename)[:-5]`: the basename minus its last
five characters (".toml"; empty when shorter, as in Python). -/
def filename_stem (p : String) : String :=
  String.mk ((basename p).data.take ((basename p).data.length - 5))

/-- Whether the character sequence `needle` is a prefix of `hay`. -/
def starts_with : List Char → List Char → Bool
  | _, [] => true
  | [], _ :: _ => false
  | c :: cs, d :: ds => c == d && starts_with cs ds

/-- Whether the character sequence `needle` occurs inside `hay`. -/
def contains_seq : List Char → List Char → Bool
  | [], needle => needle.isEmpty
  | c :: cs, needle => starts_with (c :: cs) needle || contains_seq cs needle

/-- Whether `needle` occurs as a substring of `hay` (used to state whether
an error message names a file). -/
def mentions (hay needle : String) : Bool := contains_seq hay.data needle.data

/-- The first required field absent from the recipe table, in the fixed
check order of `REQUIRED_RECIPE_FIELDS`: the source's for-loop raises at
the first absent field. -/
def first_missing_required (recipe : TomlTable) : Option String :=
  REQUIRED_RECIPE_FIELDS.find? (fun f => (tlookup recipe f).isNone)

/-- The nutrition vocabulary check of `Site.parse_recipe`: when a
`nutrition` table is present, the first key outside `NUTRITION_FIELDS`
produces the error naming that key and the file.  (A present but non-table
`nutrition` value makes the Python for-loop raise as well; it is modelled
by a generic error, and no claim depends on that case.) -/
def check_nutrition (recipe : TomlTable) (recipe_filename : String) : Option String :=
  match tlookup recipe "nutrition" with
  | none => none
  | some (Toml.table nkv) =>
    match nkv.find? (fun p => !(NUTRITION_FIELDS.contains p.1)) with
    | some p => some (p.1 ++ " is an unknown macronutrient in recipe " ++ recipe_filename)
    | none => none
  | some _ => some ("nutrition is not a table in recipe " ++ recipe_filename)

/-- The validation phase of `Site.parse_recipe`, on the document after the
`filename` key has been stamped: check required-field presence (first
missing field wins), check the nutrition vocabulary, then check
`ingredients` is a non-empty list.  The catch-all ingredients branch
covers non-list values; the key is always present there because the
required-field check already passed. -/
def validate_recipe (recipe_filename : String) (recipe : TomlTable) : Except String TomlTable :=
  match first_missing_required recipe with
  | some f => .error ("Required field " ++ f ++ " not in recipe " ++ recipe_filename)
  | none =>
    match check_nutrition recipe recipe_filename with
    | some e => .error e
    | none =>
      match tlookup recipe "ingredients" with
      | some (Toml.list items) =>
        if items.length = 0 then .error "ingredients must not be empty"
        else .ok recipe
      | _ => .error "ingredients must be a list"

/-- `Site.parse_recipe`: stamp the `filename` key from the path's stem
(`recipe["filename"] = os.path.basename(recipe_filename)[:-5]`), then
validate. -/
def parse_recipe (recipe_filename : String) (doc : TomlTable) : Except String TomlTable :=
  validate_recipe recipe_filename (tset doc "filename" (Toml.str (filename_stem recipe_filename)))

/-- `Site.parse_recipes` applied to the candidate documents that the glob
returned (example document already excluded); the list comprehension
evaluates in order and the first exception aborts the rest. -/
def parse_recipes : List (String × TomlTable) → Except String (List TomlTable)
  | [] => .ok []
  | d :: ds =>
    match parse_recipe d.1 d.2 with
    | .error e => .error e
    | .ok r =>
      match parse_recipes ds with
      | .error e => .error e
      | .ok rs => .ok (r :: rs)

/-- An opaque pickled blob (the external `pickle` library's output). -/
structure Blob where
  data : Toml

/-- `pickle_dumps = functools.partial(pickle.dumps, protocol=-1)`. -/
def pickle_dumps (t : Toml) : Blob := ⟨t⟩

/-- `pickle.loads`, the inverse of `pickle_dumps`. -/
def pickle_loads (b : Blob) : Toml := b.data

/-- A value the sqlite3 driver can bind as a statement parameter. -/
inductive SQLValue where
  | null
  | int (i : Int)
  | text (s : String)

/-- sqlite3 parameter binding: strings and integers bind directly, a bool
binds as an integer; lists and tables (dicts) are unsupported types and
make `execute` raise `InterfaceError`. -/
def bindValue : Toml → Option SQLValue
  | Toml.str s => some (SQLValue.text s)
  | Toml.int i => some (SQLValue.int i)
  | Toml.bool b => some (SQLValue.int (if b then 1 else 0))
  | Toml.list _ => none
  | Toml.table _ => none

/-- One row of the `recipes` table.  `id` is the store-assigned rowid;
`date_added` is always bound from the integer `TODAY_INT`; `ingredients`
is always bound from a pickled blob; the five optional columns default to
NULL and are only touched by the per-field UPDATE loop. -/
structure Row where
  id : Nat
  filename : SQLValue
  title : SQLValue
  date_added : Int
  author : SQLValue
  type : SQLValue
  cook_time : SQLValue := SQLValue.null
  prep_time : SQLValue := SQLValue.null
  description : SQLValue
  ingredients : Blob
  yield : SQLValue := SQLValue.null
  serving_size : SQLValue := SQLValue.null
  directions : SQLValue
  nutrition : SQLValue := SQLValue.null

/-- The in-memory store: the `recipes` table in rowid order (the program
only ever appends, so the list order is rowid ascending). -/
structure Store where
  rows : List Row

/-- The rowid sqlite assigns to the next insert with a NULL id:
max existing rowid plus one (one for an empty table). -/
def next_rowid (st : Store) : Nat :=
  (st.rows.foldl (fun m r => max m r.id) 0) + 1

/-- `UPDATE recipes SET {field} = ?` for one optional column: only the five
optional columns can be named, and only that column of the row changes. -/
def set_column (r : Row) (field : String) (v : SQLValue) : Row :=
  if field = "cook_time" then { r with cook_time := v }
  else if field = "prep_time" then { r with prep_time := v }
  else if field = "yield" then { r with yield := v }
  else if field = "serving_size" then { r with serving_size := v }
  else if field = "nutrition" then { r with nutrition := v }
  else r

/-- The optional-field UPDATE loop of `Site.insert_recipe`: for each field
of `OPTIONAL_RECIPE_FIELDS` present in the document, bind the raw value
(the source does not serialize these) and set the column of the freshly
inserted row (the WHERE clause matches exactly the new rowid, which is
unique); an unbindable value raises `InterfaceError`. -/
def apply_optional_updates : List String → TomlTable → Row → Except String Row
  | [], _, row => .ok row
  | f :: fs, recipe, row =>
    match tlookup recipe f with
    | none => apply_optional_updates fs recipe row
    | some v =>
      match bindValue v with
      | none => .error ("InterfaceError: Error binding parameter (" ++ f ++ ")")
      | some sv => apply_optional_updates fs recipe (set_column row f sv)

/-- `k ∈ recipe` plus `recipe[k]`: a missing key raises `KeyError` (never
reached on parser output, where required keys are present). -/
def dict_get (recipe : TomlTable) (k : String) : Except String Toml :=
  match tlookup recipe k with
  | some v => .ok v
  | none => .error ("KeyError: " ++ k)

/-- Binding one INSERT parameter. -/
def bind_param (v : Toml) (field : String) : Except String SQLValue :=
  match bindValue v with
  | some sv => .ok sv
  | none => .error ("InterfaceError: Error binding parameter (" ++ field ++ ")")

/-- The row `Site.insert_recipe` produces for rowid `rid`: the INSERT
statement binds title, `TODAY_INT` as `date_added`, author, type, the
pickled ingredients, directions, description and filename, then the
optional-field UPDATE loop runs on the new row. -/
def build_row (today : Int) (recipe : TomlTable) (rid : Nat) : Except String Row := do
  let title ← dict_get recipe "title"
  let author ← dict_get recipe "author"
  let ty ← dict_get recipe "type"
  let ingredients ← dict_get recipe "ingredients"
  let directions ← dict_get recipe "directions"
  let description ← dict_get recipe "description"
  let filename ← dict_get recipe "filename"
  let titleV ← bind_param title "title"
  let authorV ← bind_param author "author"
  let tyV ← bind_param ty "type"
  let directionsV ← bind_param directions "directions"
  let descriptionV ← bind_param description "description"
  let filenameV ← bind_param filename "filename"
  apply_optional_updates OPTIONAL_RECIPE_FIELDS recipe
    { id := rid, filename := filenameV, title := titleV, date_added := today,
      author := authorV, type := tyV, description := descriptionV,
      ingredients := pickle_dumps ingredients, directions := directionsV }

/-- `Site.insert_recipe`: append the new row with the next rowid.  (On a
mid-insert exception the program aborts before any query, so the failed
state is discarded.) -/
def insert_recipe (today : Int) (st : Store) (recipe : TomlTable) : Except String Store :=
  match build_row today recipe (next_rowid st) with
  | .error e => .error e
  | .ok row => .ok ⟨st.rows ++ [row]⟩

/-- `Site.load_db`: insert each parsed recipe in order; the first
exception aborts the rest. -/
def load_db (today : Int) (st : Store) : List TomlTable → Except String Store
  | [] => .ok st
  | r :: rs =>
    match insert_recipe today st r with
    | .error e => .error e
    | .ok st2 => load_db today st2 rs

/-- The projection the front-page SELECT returns. -/
structure SummaryRow where
  id : Nat
  filename : SQLValue
  title : SQLValue
  date_added : Int
  author : SQLValue
  description : SQLValue

/-- The summary projection of a stored row. -/
def summaryOf (r : Row) : SummaryRow :=
  ⟨r.id, r.filename, r.title, r.date_added, r.author, r.description⟩

/-- The order `ORDER BY date_added DESC` yields over the `recipes_date_added`
index: `date_added` descending, ties in rowid ascending order. -/
def summary_order (a b : Row) : Prop :=
  b.date_added < a.date_added ∨ (a.date_added = b.date_added ∧ a.id ≤ b.id)

instance : DecidableRel summary_order := fun a b => by
  unfold summary_order
  infer_instance

/-- The front-page query of `Site.write_front_pages`: all rows' summary
columns, ordered by `date_added` descending with rowid-ascending ties. -/
def query_summaries (st : Store) : List SummaryRow :=
  (List.insertionSort summary_order st.rows).map summaryOf

/-- `chunk(l, n)`: contiguous slices `l[i:i+n]` for `i = 0, n, 2n, …`.
The source only calls it with `n = RECIPES_PER_PAGE` (positive); the
`n = 0` case is arbitrary (Python's `range` would raise there). -/
def chunk : List α → Nat → List (List α)
  | [], _ => []
  | x :: xs, n =>
    if n = 0 then []
    else (x :: xs).take n :: chunk ((x :: xs).drop n) n
termination_by l _ => l.length
decreasing_by
  simp only [List.length_drop, List.length_cons]
  omega

/-- A value in a render context. -/
inductive CtxValue where
  | sql (v : SQLValue)
  | obj (t : Toml)
  | nat (n : Nat)
  | summaries (l : List SummaryRow)

/-- A rendered output artifact: the template used, the output file name,
and the render context passed to the template engine. -/
structure Artifact where
  template : String
  filename : String
  context : List (String × CtxValue)

/-- Python string formatting of a column value (only the text case is ever
reached: `filename` is always bound from a string). -/
def sql_text : SQLValue → String
  | SQLValue.text s => s
  | SQLValue.int i => toString i
  | SQLValue.null => "None"

/-- `Site.write_front_page`: page 1 renders to `index.html`, page `k > 1`
to `index{k}.html`; the context carries the chunk, the 1-based page index
and the page count. -/
def write_front_page (page : List SummaryRow) (page_idx page_cnt : Nat) : Artifact :=
  { template := "front_page.html",
    filename := if page_idx = 1 then "index.html" else "index" ++ toString page_idx ++ ".html",
    context := [("recipes", CtxValue.summaries page),
                ("page_idx", CtxValue.nat page_idx),
                ("page_cnt", CtxValue.nat page_cnt)] }

/-- `Site.write_front_pages`: chunk the summaries into pages of
`RECIPES_PER_PAGE` and render each with its 1-based index. -/
def write_front_pages (st : Store) : List Artifact :=
  (chunk (query_summaries st) RECIPES_PER_PAGE).enum.map
    (fun p => write_front_page p.2 (p.1 + 1) (chunk (query_summaries st) RECIPES_PER_PAGE).length)

/-- The recipe-page query of `Site.write_recipe_pages`: a SELECT with no
ORDER BY is a table scan in rowid order. -/
def query_details (st : Store) : List Row := st.rows

/-- `dict(recipe)` for one detail row, with `ingredients` replaced by its
unpickled value: the keys are exactly the columns of the SELECT, in
order — the five optional columns are not selected. -/
def detail_context (r : Row) : List (String × CtxValue) :=
  [("id", CtxValue.sql (SQLValue.int (Int.ofNat r.id))),
   ("filename", CtxValue.sql r.filename),
   ("title", CtxValue.sql r.title),
   ("date_added", CtxValue.sql (SQLValue.int r.date_added)),
   ("author", CtxValue.sql r.author),
   ("description", CtxValue.sql r.description),
   ("type", CtxValue.sql r.type),
   ("ingredients", CtxValue.obj (pickle_loads r.ingredients)),
   ("directions", CtxValue.sql r.directions)]

/-- `Site.write_recipe_pages`: one artifact per detail row, named
`recipe_{filename}.html`, with the detail record as context. -/
def write_recipe_pages (st : Store) : List Artifact :=
  (query_details st).map (fun r =>
    { template := "recipe.html",
      filename := "recipe_" ++ sql_text r.filename ++ ".html",
      context := detail_context r })

/-- `Site.write_site` (tag indexing is disabled in the source). -/
def write_site (st : Store) : List Artifact :=
  write_front_pages st ++ write_recipe_pages st

/-- `Site.run` from the parsed candidate documents on: parse all documents,
load the store, then render; the first exception aborts everything after
it (config and template-engine setup are external and opaque). -/
def run (today : Int) (docs : List (String × TomlTable)) : Except String (List Artifact) :=
  match parse_recipes docs with
  | .error e => .error e
  | .ok recipes =>
    match load_db today ⟨[]⟩ recipes with
    | .error e => .error e
    | .ok st => .ok (write_site st)

/-- The artifacts a run writes: an aborted run writes none, because every
write happens in `write_site`, after parsing and loading succeeded. -/
def written_artifacts : Except String (List Artifact) → List Artifact
  | .ok arts => arts
  | .error _ => []

/-! ### Pagination lemmas (claim C1) -/

theorem chunk_nil (n : Nat) : chunk ([] : List α) n = [] := by
  simp [chunk]

theorem chunk_cons (x : α) (xs : List α) (n : Nat) (hn : ¬ n = 0) :
    chunk (x :: xs) n = (x :: xs).take n :: chunk ((x :: xs).drop n) n := by
  rw [chunk]
  simp [hn]

theorem chunk_join : ∀ (l : List α) (n : Nat), 0 < n → (chunk l n).flatten = l := by
  intro l n
  induction l, n using chunk.induct with
  | case1 m => intro _; simp [chunk]
  | case2 x xs => intro h; omega
  | case3 x xs n hn0 ih =>
    intro hn
    rw [chunk_cons x xs n hn0, List.flatten_cons, ih hn, List.take_append_drop]

theorem chunk_length : ∀ (l : List α) (n : Nat), 0 < n →
    (chunk l n).length = (l.length + n - 1) / n := by
  intro l n
  induction l, n using chunk.induct with
  | case1 m =>
    intro hm
    rw [chunk_nil]
    simp only [List.length_nil, List.length]
    exact (Nat.div_eq_of_lt (by omega)).symm
  | case2 x xs => intro h; omega
  | case3 x xs n hn0 ih =>
    intro hn
    rw [chunk_cons x xs n hn0]
    simp only [List.length_cons, ih hn, List.length_drop]
    by_cases hLn : xs.length + 1 ≤ n
    · have h1 : xs.length + 1 - n = 0 := by omega
      rw [h1]
      rw [Nat.div_eq_of_lt (by omega : 0 + n - 1 < n)]
      have h2 : xs.length + 1 + n - 1 = xs.length + n := by omega
      rw [h2, Nat.add_div_right _ hn, Nat.div_eq_of_lt (by omega : xs.length < n)]
    · push_neg at hLn
      have h1 : xs.length + 1 - n + n - 1 = (xs.length - n) + n := by omega
      have h2 : xs.length + 1 + n - 1 = xs.length + n := by omega
      rw [h1, h2, Nat.add_div_right _ hn, Nat.add_div_right _ hn]
      have h3 : xs.length = (xs.length - n) + n := by omega
      conv_rhs => rw [h3, Nat.add_div_right _ hn]

theorem chunk_page_length : ∀ (l : List α) (n : Nat), 0 < n →
    ∀ page ∈ chunk l n, 1 ≤ page.length ∧ page.length ≤ n := by
  intro l n
  induction l, n using chunk.induct with
  | case1 m => intro _ page hp; rw [chunk_nil] at hp; simp at hp
  | case2 x xs => intro h; omega
  | case3 x xs n hn0 ih =>
    intro hn page hp
    rw [chunk_cons x xs n hn0] at hp
    rcases List.mem_cons.mp hp with h | h
    · subst h
      simp only [List.length_take, List.length_cons]
      omega
    · exact ih hn page h

theorem chunk_dropLast : ∀ (l : List α) (n : Nat), 0 < n →
    ∀ page ∈ (chunk l n).dropLast, page.length = n := by
  intro l n
  induction l, n using chunk.induct with
  | case1 m => intro _ page hp; rw [chunk_nil] at hp; simp at hp
  | case2 x xs => intro h; omega
  | case3 x xs n hn0 ih =>
    intro hn page hp
    rw [chunk_cons x xs n hn0] at hp
    cases hrest : chunk ((x :: xs).drop n) n with
    | nil => rw [hrest] at hp; simp at hp
    | cons y ys =>
      rw [hrest, List.dropLast_cons₂] at hp
      rcases List.mem_cons.mp hp with h | h
      · subst h
        have hne : (x :: xs).drop n ≠ [] := by
          intro hd
          rw [hd, chunk_nil] at hrest
          exact List.noConfusion hrest
        have hlen : n ≤ (x :: xs).length := by
          by_contra hlt
          push_neg at hlt
          exact hne (List.drop_eq_nil_of_le (by omega))
        simp only [List.length_take, List.length_cons] at hlen ⊢
        omega
      · exact ih hn page (by rw [hrest]; exact h)

/-- Claim C1: for every ordered list of summaries and page size `P`
(the builder's page size `RECIPES_PER_PAGE` is 10), `chunk` — the
builder's pagination — produces exactly `⌈N/P⌉` pages; every page except
possibly the last has exactly `P` entries; every page (in particular the
last) has between 1 and `P` entries; concatenating all pages in order
reproduces the original sequence; and the builder renders exactly one
front-page artifact per page. -/
theorem c1_pagination (l : List α) (P : Nat) (hP : 0 < P) :
    (chunk l P).length = (l.length + P - 1) / P ∧
    (∀ page ∈ (chunk l P).dropLast, page.length = P) ∧
    (∀ page ∈ chunk l P, 1 ≤ page.length ∧ page.length ≤ P) ∧
    (chunk l P).flatten = l ∧
    RECIPES_PER_PAGE = 10 ∧
    (∀ st : Store, (write_front_pages st).length =
      (chunk (query_summaries st) RECIPES_PER_PAGE).length) := by
  refine ⟨chunk_length l P hP, chunk_dropLast l P hP, chunk_page_length l P hP,
    chunk_join l P hP, rfl, ?_⟩
  intro st
  simp [write_front_pages]

/-- Witness for C1 at `l = List.range 12`, `P = 10`. -/
theorem c1_pagination_witness :
    0 < 10 ∧
    ((chunk (List.range 12) 10).length = ((List.range 12).length + 10 - 1) / 10 ∧
     (∀ page ∈ (chunk (List.range 12) 10).dropLast, page.length = 10) ∧
     (∀ page ∈ chunk (List.range 12) 10, 1 ≤ page.length ∧ page.length ≤ 10) ∧
     (chunk (List.range 12) 10).flatten = List.range 12 ∧
     RECIPES_PER_PAGE = 10 ∧
     (∀ st : Store, (write_front_pages st).length =
       (chunk (query_summaries st) RECIPES_PER_PAGE).length)) :=
  ⟨by decide, c1_pagination (List.range 12) 10 (by decide)⟩

/-! ### Dictionary lemmas -/

theorem find?_key_map_set (k k' : String) (v : Toml) (h : ¬ k' = k) :
    ∀ t : TomlTable,
      (t.map (fun p => if p.1 == k then (k, v) else p)).find? (fun p => p.1 == k') =
        t.find? (fun p => p.1 == k') := by
  intro t
  induction t with
  | nil => rfl
  | cons p ps ih =>
    simp only [List.map_cons]
    by_cases hp : (p.1 == k) = true
    · have hpk : p.1 = k := by simpa using hp
      have h1 : (k == k') = false := by
        simp only [beq_eq_false_iff_ne, ne_eq]
        exact fun hh => h hh.symm
      have h2 : (p.1 == k') = false := by rw [hpk]; exact h1
      rw [if_pos hp]
      rw [List.find?_cons, List.find?_cons]
      simp only [show ((k, v).1 == k') = false from h1, h2]
      exact ih
    · rw [if_neg hp]
      by_cases hq : (p.1 == k') = true
      · rw [List.find?_cons, List.find?_cons]
        simp only [hq]
      · rw [Bool.not_eq_true] at hq
        rw [List.find?_cons, List.find?_cons]
        simp only [hq]
        exact ih

theorem find?_map_set_self (k : String) (v : Toml) :
    ∀ t : TomlTable, t.any (fun p => p.1 == k) = true →
      (t.map (fun p => if p.1 == k then (k, v) else p)).find? (fun p => p.1 == k) =
        some (k, v) := by
  intro t
  induction t with
  | nil => intro ha; simp at ha
  | cons p ps ih =>
    intro ha
    simp only [List.map_cons]
    by_cases hp : (p.1 == k) = true
    · rw [if_pos hp]
      rw [List.find?_cons]
      simp only [show ((k, v).1 == k) = true from by simp]
    · rw [if_neg hp]
      rw [Bool.not_eq_true] at hp
      have ha2 : ps.any (fun p => p.1 == k) = true := by
        simpa [List.any_cons, hp] using ha
      rw [List.find?_cons]
      simp only [hp]
      exact ih ha2

/-- Setting key `k` does not change the lookup of a different key. -/
theorem tlookup_tset_ne (t : TomlTable) (k k' : String) (v : Toml) (h : ¬ k' = k) :
    tlookup (tset t k v) k' = tlookup t k' := by
  unfold tset tlookup
  by_cases ha : t.any (fun p => p.1 == k)
  · rw [if_pos ha, find?_key_map_set k k' v h t]
  · rw [if_neg ha, List.find?_append]
    have h1 : ([(k, v)].find? (fun p => p.1 == k')) = none := by
      have hkk : (k == k') = false := by
        simp only [beq_eq_false_iff_ne, ne_eq]
        exact fun hh => h hh.symm
      simp [List.find?_cons, hkk]
    rw [h1]
    cases t.find? (fun p => p.1 == k') <;> rfl

/-- Setting key `k` makes the lookup of `k` return the new value. -/
theorem tlookup_tset_self (t : TomlTable) (k : String) (v : Toml) :
    tlookup (tset t k v) k = some v := by
  unfold tset tlookup
  by_cases ha : t.any (fun p => p.1 == k)
  · rw [if_pos ha, find?_map_set_self k v t ha]
  · rw [if_neg ha, List.find?_append]
    have h1 : (t.find? (fun p => p.1 == k)) = none := by
      rw [List.find?_eq_none]
      intro x hx hxk
      exact ha (List.any_eq_true.mpr ⟨x, hx, hxk⟩)
    rw [h1]
    simp [List.find?_cons]

/-! ### Validation claims (C7, C8, C9) -/

theorem required_field_ne_filename : ∀ x ∈ REQUIRED_RECIPE_FIELDS, ¬ x = "filename" := by
  decide

/-- Stamping the `filename` key leaves every required field's lookup
unchanged. -/
theorem tlookup_stamp_required (doc : TomlTable) (fname : String) (f : String)
    (hf : f ∈ REQUIRED_RECIPE_FIELDS) :
    tlookup (tset doc "filename" (Toml.str (filename_stem fname))) f = tlookup doc f :=
  tlookup_tset_ne doc "filename" f _ (required_field_ne_filename f hf)

/-- Claim C7: a recipe document missing any required field fails to parse,
with an error naming the first missing field (in the fixed check order of
`REQUIRED_RECIPE_FIELDS`) and the offending file. -/
theorem c7_missing_required_field (recipe_filename : String) (doc : TomlTable) (f : String)
    (hf : f ∈ REQUIRED_RECIPE_FIELDS) (hmiss : tlookup doc f = none) :
    ∃ g, first_missing_required
        (tset doc "filename" (Toml.str (filename_stem recipe_filename))) = some g ∧
      g ∈ REQUIRED_RECIPE_FIELDS ∧ tlookup doc g = none ∧
      parse_recipe recipe_filename doc =
        .error ("Required field " ++ g ++ " not in recipe " ++ recipe_filename) := by
  set recipe := tset doc "filename" (Toml.str (filename_stem recipe_filename)) with hrec
  have hsome : (first_missing_required recipe).isSome := by
    unfold first_missing_required
    rw [List.find?_isSome]
    refine ⟨f, hf, ?_⟩
    rw [hrec, tlookup_stamp_required doc recipe_filename f hf, hmiss]
    rfl
  obtain ⟨g, hg⟩ := Option.isSome_iff_exists.mp hsome
  have hg2 : REQUIRED_RECIPE_FIELDS.find? (fun x => (tlookup recipe x).isNone) = some g := hg
  have hgm : g ∈ REQUIRED_RECIPE_FIELDS := List.mem_of_find?_eq_some hg2
  have hgp : (tlookup recipe g).isNone = true :=
    @List.find?_some String (fun x => (tlookup recipe x).isNone) g REQUIRED_RECIPE_FIELDS hg2
  refine ⟨g, hg, hgm, ?_, ?_⟩
  · rw [← tlookup_stamp_required doc recipe_filename g hgm, ← hrec]
    exact Option.isNone_iff_eq_none.mp hgp
  · unfold parse_recipe validate_recipe
    rw [← hrec, hg]

/-- Witness document for C7: all required fields except `author`. -/
def c7_doc : TomlTable :=
  [("title", Toml.str "Cake"), ("date_added", Toml.int 20240101),
   ("type", Toml.str "dessert"), ("ingredients", Toml.list [Toml.str "flour"]),
   ("directions", Toml.str "bake it"), ("description", Toml.str "a cake")]

/-- Witness for C7: the concrete document `c7_doc` misses `author`. -/
theorem c7_missing_required_field_witness :
    ("author" ∈ REQUIRED_RECIPE_FIELDS ∧ tlookup c7_doc "author" = none) ∧
    (∃ g, first_missing_required
        (tset c7_doc "filename" (Toml.str (filename_stem "recipes/cake.toml"))) = some g ∧
      g ∈ REQUIRED_RECIPE_FIELDS ∧ tlookup c7_doc g = none ∧
      parse_recipe "recipes/cake.toml" c7_doc =
        .error ("Required field " ++ g ++ " not in recipe " ++ "recipes/cake.toml")) :=
  ⟨⟨by decide, rfl⟩,
   c7_missing_required_field "recipes/cake.toml" c7_doc "author" (by decide) rfl⟩

/-- Claim C8: a recipe document whose `nutrition` table contains a key
outside the fixed eleven-term vocabulary always fails to parse; when the
document passes the (earlier) required-field checks, the error names the
first such key and the file; and a document whose nutrition keys all lie
in the vocabulary is accepted when it is otherwise valid. -/
theorem c8_nutrition_vocabulary :
    (∀ (recipe_filename : String) (doc : TomlTable) (nkv : List (String × Toml))
       (k : String) (val : Toml),
      tlookup doc "nutrition" = some (Toml.table nkv) →
      (k, val) ∈ nkv → ¬ k ∈ NUTRITION_FIELDS →
      (∃ e, parse_recipe recipe_filename doc = .error e) ∧
      ((∀ f ∈ REQUIRED_RECIPE_FIELDS, (tlookup doc f).isSome) →
        ∃ p, nkv.find? (fun q => !(NUTRITION_FIELDS.contains q.1)) = some p ∧
          ¬ p.1 ∈ NUTRITION_FIELDS ∧
          parse_recipe recipe_filename doc =
            .error (p.1 ++ " is an unknown macronutrient in recipe " ++ recipe_filename))) ∧
    (∀ (recipe_filename : String) (doc : TomlTable) (nkv : List (String × Toml))
       (items : List Toml),
      tlookup doc "nutrition" = some (Toml.table nkv) →
      (∀ p ∈ nkv, p.1 ∈ NUTRITION_FIELDS) →
      (∀ f ∈ REQUIRED_RECIPE_FIELDS, (tlookup doc f).isSome) →
      tlookup doc "ingredients" = some (Toml.list items) → ¬ items = [] →
      ∃ r, parse_recipe recipe_filename doc = .ok r) := by
  constructor
  · intro recipe_filename doc nkv k val hn hkv hk
    set recipe := tset doc "filename" (Toml.str (filename_stem recipe_filename)) with hrec
    have hnr : tlookup recipe "nutrition" = some (Toml.table nkv) := by
      rw [hrec, tlookup_tset_ne doc "filename" "nutrition" _ (by decide), hn]
    have hfind : (nkv.find? (fun q => !(NUTRITION_FIELDS.contains q.1))).isSome := by
      rw [List.find?_isSome]
      exact ⟨(k, val), hkv, by simpa using hk⟩
    obtain ⟨p, hp⟩ := Option.isSome_iff_exists.mp hfind
    have hcn : check_nutrition recipe recipe_filename =
        some (p.1 ++ " is an unknown macronutrient in recipe " ++ recipe_filename) := by
      unfold check_nutrition
      rw [hnr]
      simp only [hp]
    constructor
    · cases hfm : first_missing_required recipe with
      | some f =>
        exact ⟨_, by unfold parse_recipe validate_recipe; rw [← hrec, hfm]⟩
      | none =>
        exact ⟨_, by unfold parse_recipe validate_recipe; rw [← hrec, hfm, hcn]⟩
    · intro hreq
      have hfm : first_missing_required recipe = none := by
        unfold first_missing_required
        rw [List.find?_eq_none]
        intro x hx
        rw [hrec, tlookup_stamp_required doc recipe_filename x hx]
        have := hreq x hx
        cases hv : tlookup doc x with
        | none => rw [hv] at this; exact absurd this (by simp)
        | some v => simp
      have hpbad : ¬ p.1 ∈ NUTRITION_FIELDS := by
        have hb := @List.find?_some (String × Toml)
          (fun q => !(NUTRITION_FIELDS.contains q.1)) p nkv hp
        simpa using hb
      refine ⟨p, hp, hpbad, ?_⟩
      unfold parse_recipe validate_recipe
      rw [← hrec, hfm, hcn]
  · intro recipe_filename doc nkv items hn hgood hreq hing hne
    set recipe := tset doc "filename" (Toml.str (filename_stem recipe_filename)) with hrec
    have hnr : tlookup recipe "nutrition" = some (Toml.table nkv) := by
      rw [hrec, tlookup_tset_ne doc "filename" "nutrition" _ (by decide), hn]
    have hfm : first_missing_required recipe = none := by
      unfold first_missing_required
      rw [List.find?_eq_none]
      intro x hx
      rw [hrec, tlookup_stamp_required doc recipe_filename x hx]
      have := hreq x hx
      cases hv : tlookup doc x with
      | none => rw [hv] at this; exact absurd this (by simp)
      | some v => simp
    have hcn : check_nutrition recipe recipe_filename = none := by
      unfold check_nutrition
      rw [hnr]
      have hnone : nkv.find? (fun q => !(NUTRITION_FIELDS.contains q.1)) = none := by
        rw [List.find?_eq_none]
        intro x hx
        simpa using hgood x hx
      simp only [hnone]
    have hi : tlookup recipe "ingredients" = some (Toml.list items) := by
      rw [hrec, tlookup_stamp_required doc recipe_filename "ingredients" (by decide), hing]
    have hlen : ¬ items.length = 0 := fun h0 => hne (List.length_eq_zero.mp h0)
    refine ⟨recipe, ?_⟩
    unfold parse_recipe validate_recipe
    rw [← hrec, hfm, hcn, hi]
    show (if items.length = 0 then Except.error "ingredients must not be empty"
          else Except.ok recipe) = Except.ok recipe
    rw [if_neg hlen]

/-- Witness nutrition table for C8, with the unknown key `vitamin_z`
(the spec's own end-to-end example). -/
def c8_nutrition_table : List (String × Toml) :=
  [("calories", Toml.int 100), ("vitamin_z", Toml.int 5)]

/-- Witness document for C8: valid except for the `vitamin_z` key. -/
def c8_doc : TomlTable :=
  [("title", Toml.str "Soup"), ("date_added", Toml.int 20240102),
   ("author", Toml.str "ann"), ("type", Toml.str "soup"),
   ("ingredients", Toml.list [Toml.str "water"]),
   ("directions", Toml.str "boil"), ("description", Toml.str "a soup"),
   ("nutrition", Toml.table c8_nutrition_table)]

/-- Witness document for C8 acceptance: nutrition keys all in vocabulary. -/
def c8_doc_ok : TomlTable :=
  [("title", Toml.str "Stew"), ("date_added", Toml.int 20240103),
   ("author", Toml.str "bob"), ("type", Toml.str "stew"),
   ("ingredients", Toml.list [Toml.str "beef"]),
   ("directions", Toml.str "simmer"), ("description", Toml.str "a stew"),
   ("nutrition", Toml.table [("calories", Toml.int 200)])]

/-- Witness for C8 at the concrete documents `c8_doc` and `c8_doc_ok`. -/
theorem c8_nutrition_vocabulary_witness :
    (∃ e, parse_recipe "recipes/soup.toml" c8_doc = .error e) ∧
    (∃ p, c8_nutrition_table.find? (fun q => !(NUTRITION_FIELDS.contains q.1)) = some p ∧
      ¬ p.1 ∈ NUTRITION_FIELDS ∧
      parse_recipe "recipes/soup.toml" c8_doc =
        .error (p.1 ++ " is an unknown macronutrient in recipe " ++ "recipes/soup.toml")) ∧
    (∃ r, parse_recipe "recipes/stew.toml" c8_doc_ok = .ok r) := by
  have h1 := c8_nutrition_vocabulary.1 "recipes/soup.toml" c8_doc c8_nutrition_table
    "vitamin_z" (Toml.int 5) rfl
    (List.mem_cons_of_mem _ (List.mem_cons_self _ _)) (by decide)
  refine ⟨h1.1, h1.2 (by decide), ?_⟩
  exact c8_nutrition_vocabulary.2 "recipes/stew.toml" c8_doc_ok
    [("calories", Toml.int 200)] [Toml.str "beef"] rfl
    (by
      intro p hp
      rw [List.mem_singleton.mp hp]
      decide)
    (by decide) rfl (by simp)

/-- Claim C9 (amended): a recipe document whose `ingredients` value is
absent, not a list, or an empty list always fails to parse; but only the
missing-field error names the offending file — the non-list and empty
errors are the constant messages `"ingredients must be a list"` and
`"ingredients must not be empty"`, which name the violated rule only. -/
theorem c9_ingredients_amended :
    (∀ (recipe_filename : String) (doc : TomlTable),
      (tlookup doc "ingredients" = none ∨
       (∃ t, tlookup doc "ingredients" = some t ∧ ∀ items : List Toml, ¬ t = Toml.list items) ∨
       tlookup doc "ingredients" = some (Toml.list [])) →
      ∃ e, parse_recipe recipe_filename doc = .error e) ∧
    (∀ (recipe_filename : String) (doc : TomlTable) (t : Toml),
      first_missing_required
        (tset doc "filename" (Toml.str (filename_stem recipe_filename))) = none →
      check_nutrition
        (tset doc "filename" (Toml.str (filename_stem recipe_filename))) recipe_filename = none →
      tlookup doc "ingredients" = some t →
      ((∀ items : List Toml, ¬ t = Toml.list items) →
        parse_recipe recipe_filename doc = .error "ingredients must be a list") ∧
      (t = Toml.list [] →
        parse_recipe recipe_filename doc = .error "ingredients must not be empty")) := by
  constructor
  · intro recipe_filename doc hbad
    set recipe := tset doc "filename" (Toml.str (filename_stem recipe_filename)) with hrec
    have hlift : tlookup recipe "ingredients" = tlookup doc "ingredients" := by
      rw [hrec]
      exact tlookup_stamp_required doc recipe_filename "ingredients" (by decide)
    cases hfm : first_missing_required recipe with
    | some f =>
      exact ⟨_, by unfold parse_recipe validate_recipe; rw [← hrec, hfm]⟩
    | none =>
      have hpres : ¬ (tlookup recipe "ingredients").isNone = true := by
        have h2 : REQUIRED_RECIPE_FIELDS.find?
            (fun x => (tlookup recipe x).isNone) = none := hfm
        rw [List.find?_eq_none] at h2
        exact h2 "ingredients" (by decide)
      cases hcn : check_nutrition recipe recipe_filename with
      | some e =>
        exact ⟨e, by unfold parse_recipe validate_recipe; rw [← hrec, hfm, hcn]⟩
      | none =>
        rcases hbad with h | ⟨t, ht, hnl⟩ | h
        · exact absurd (by rw [hlift, h]; rfl) hpres
        · refine ⟨"ingredients must be a list", ?_⟩
          unfold parse_recipe validate_recipe
          rw [← hrec, hfm, hcn, hlift, ht]
          cases t with
          | list items => exact absurd rfl (hnl items)
          | str s => rfl
          | int i => rfl
          | bool b => rfl
          | table kvs => rfl
        · refine ⟨"ingredients must not be empty", ?_⟩
          unfold parse_recipe validate_recipe
          rw [← hrec, hfm, hcn, hlift, h]
          rfl
  · intro recipe_filename doc t hfm hcn hing
    have hlift : tlookup (tset doc "filename" (Toml.str (filename_stem recipe_filename)))
        "ingredients" = tlookup doc "ingredients" :=
      tlookup_stamp_required doc recipe_filename "ingredients" (by decide)
    constructor
    · intro hnl
      unfold parse_recipe validate_recipe
      rw [hfm, hcn, hlift, hing]
      cases t with
      | list items => exact absurd rfl (hnl items)
      | str s => rfl
      | int i => rfl
      | bool b => rfl
      | table kvs => rfl
    · intro hte
      unfold parse_recipe validate_recipe
      rw [hfm, hcn, hlift, hing, hte]
      rfl

/-- Counterexample document for C9: all required fields present, but
`ingredients` is the integer 5. -/
def c9_doc : TomlTable :=
  [("title", Toml.str "Spam"), ("date_added", Toml.int 20240104),
   ("author", Toml.str "cid"), ("type", Toml.str "spam"),
   ("ingredients", Toml.int 5),
   ("directions", Toml.str "fry"), ("description", Toml.str "tinned")]

/-- Counterexample for C9 as stated: the non-list ingredients error is the
constant message `"ingredients must be a list"`, which does not mention
the offending file `recipes/spam.toml` (nor its stem `spam`). -/
theorem c9_counterexample :
    parse_recipe "recipes/spam.toml" c9_doc = .error "ingredients must be a list" ∧
    mentions "ingredients must be a list" "spam" = false ∧
    mentions "ingredients must be a list" "recipes/spam.toml" = false :=
  ⟨rfl, rfl, rfl⟩

/-- Witness for the amended C9 at the concrete document `c9_doc`. -/
theorem c9_ingredients_amended_witness :
    (∃ e, parse_recipe "recipes/spam.toml" c9_doc = .error e) ∧
    parse_recipe "recipes/spam.toml" c9_doc = .error "ingredients must be a list" :=
  ⟨c9_ingredients_amended.1 "recipes/spam.toml" c9_doc
    (Or.inr (Or.inl ⟨Toml.int 5, rfl, fun _ h => Toml.noConfusion h⟩)),
   (c9_ingredients_amended.2 "recipes/spam.toml" c9_doc (Toml.int 5) rfl rfl rfl).1
    (fun _ h => Toml.noConfusion h)⟩

/-! ### Store lemmas (claims C2, C5, C6) -/

theorem except_bind_ok {α β : Type} (x : Except String α) (f : α → Except String β) (b : β) :
    (x >>= f) = .ok b ↔ ∃ a, x = .ok a ∧ f a = .ok b := by
  cases x with
  | error e => simp [Bind.bind, Except.bind]
  | ok a => simp [Bind.bind, Except.bind]

theorem dict_get_ok (recipe : TomlTable) (k : String) (v : Toml) :
    dict_get recipe k = .ok v ↔ tlookup recipe k = some v := by
  unfold dict_get
  cases tlookup recipe k <;> simp

theorem bind_param_ok (v : Toml) (field : String) (sv : SQLValue) :
    bind_param v field = .ok sv ↔ bindValue v = some sv := by
  unfold bind_param
  cases bindValue v <;> simp

theorem set_column_id (r : Row) (field : String) (v : SQLValue) :
    (set_column r field v).id = r.id := by
  unfold set_column
  split_ifs <;> rfl

theorem set_column_date_added (r : Row) (field : String) (v : SQLValue) :
    (set_column r field v).date_added = r.date_added := by
  unfold set_column
  split_ifs <;> rfl

theorem set_column_ingredients (r : Row) (field : String) (v : SQLValue) :
    (set_column r field v).ingredients = r.ingredients := by
  unfold set_column
  split_ifs <;> rfl

/-- The optional-field UPDATE loop never touches the rowid, the
`date_added` stamp, or the `ingredients` blob. -/
theorem apply_optional_updates_spec :
    ∀ (fs : List String) (recipe : TomlTable) (row row' : Row),
      apply_optional_updates fs recipe row = .ok row' →
      row'.id = row.id ∧ row'.date_added = row.date_added ∧
      row'.ingredients = row.ingredients := by
  intro fs
  induction fs with
  | nil =>
    intro recipe row row' h
    unfold apply_optional_updates at h
    injection h with h
    subst h
    exact ⟨rfl, rfl, rfl⟩
  | cons f fs ih =>
    intro recipe row row' h
    unfold apply_optional_updates at h
    cases hl : tlookup recipe f with
    | none =>
      rw [hl] at h
      exact ih recipe row row' h
    | some v =>
      rw [hl] at h
      replace h : (match bindValue v with
        | none => Except.error ("InterfaceError: Error binding parameter (" ++ f ++ ")")
        | some sv => apply_optional_updates fs recipe (set_column row f sv)) =
          Except.ok row' := h
      cases hb : bindValue v with
      | none => rw [hb] at h; exact Except.noConfusion h
      | some sv =>
        rw [hb] at h
        obtain ⟨a1, a2, a3⟩ := ih recipe (set_column row f sv) row' h
        exact ⟨a1.trans (set_column_id row f sv),
               a2.trans (set_column_date_added row f sv),
               a3.trans (set_column_ingredients row f sv)⟩

/-- A successful `build_row` yields the requested rowid, the `today`
stamp as `date_added`, and the pickled `ingredients` value. -/
theorem build_row_spec (today : Int) (recipe : TomlTable) (rid : Nat) (row : Row)
    (h : build_row today recipe rid = .ok row) :
    row.id = rid ∧ row.date_added = today ∧
    ∃ ingr, tlookup recipe "ingredients" = some ingr ∧
      row.ingredients = pickle_dumps ingr := by
  unfold build_row at h
  simp only [except_bind_ok] at h
  obtain ⟨title, ht, author, ha, ty, hty, ingr, hingr, directions, hdir, description,
    hdesc, filename, hfn, tv, htv, av, hav, tyv, htyv, dv, hdv, dsv, hdsv, fv, hfv, hopt⟩ := h
  obtain ⟨a1, a2, a3⟩ := apply_optional_updates_spec OPTIONAL_RECIPE_FIELDS recipe _ row hopt
  refine ⟨a1, a2, ingr, (dict_get_ok recipe "ingredients" ingr).mp hingr, a3⟩

/-- A successful insert appends exactly one row, with the next rowid, the
`today` stamp, and the pickled ingredients. -/
theorem insert_recipe_ok (today : Int) (st : Store) (recipe : TomlTable) (st' : Store)
    (h : insert_recipe today st recipe = .ok st') :
    ∃ row, st'.rows = st.rows ++ [row] ∧ row.id = next_rowid st ∧
      row.date_added = today ∧
      ∃ ingr, tlookup recipe "ingredients" = some ingr ∧
        row.ingredients = pickle_dumps ingr := by
  unfold insert_recipe at h
  cases hb : build_row today recipe (next_rowid st) with
  | error e => rw [hb] at h; exact Except.noConfusion h
  | ok row =>
    rw [hb] at h
    injection h with h
    obtain ⟨a1, a2, a3⟩ := build_row_spec today recipe (next_rowid st) row hb
    exact ⟨row, by rw [← h], a1, a2, a3⟩

theorem le_foldl_max : ∀ (l : List Row) (init : Nat), init ≤ l.foldl (fun m r => max m r.id) init := by
  intro l
  induction l with
  | nil => intro init; exact Nat.le_refl init
  | cons r rs ih =>
    intro init
    exact le_trans (Nat.le_max_left init r.id) (ih (max init r.id))

theorem mem_le_foldl_max : ∀ (l : List Row) (init : Nat) (r : Row), r ∈ l →
    r.id ≤ l.foldl (fun m r => max m r.id) init := by
  intro l
  induction l with
  | nil => intro init r hr; exact absurd hr (List.not_mem_nil r)
  | cons x xs ih =>
    intro init r hr
    rcases List.mem_cons.mp hr with h | h
    · subst h
      exact le_trans (Nat.le_max_right init r.id) (le_foldl_max xs (max init r.id))
    · exact ih (max init x.id) r h

/-- Every existing rowid is strictly below the next assigned rowid. -/
theorem id_lt_next_rowid (st : Store) (r : Row) (hr : r ∈ st.rows) :
    r.id < next_rowid st :=
  Nat.lt_succ_of_le (mem_le_foldl_max st.rows 0 r hr)

/-- Loading preserves the two store invariants: every row is stamped with
`today`, and rowids are strictly increasing in list (insertion) order. -/
theorem load_db_preserves (today : Int) :
    ∀ (recipes : List TomlTable) (st st' : Store),
      load_db today st recipes = .ok st' →
      (∀ r ∈ st.rows, r.date_added = today) →
      List.Pairwise (fun a b : Row => a.id < b.id) st.rows →
      (∀ r ∈ st'.rows, r.date_added = today) ∧
      List.Pairwise (fun a b : Row => a.id < b.id) st'.rows := by
  intro recipes
  induction recipes with
  | nil =>
    intro st st' h hd hp
    unfold load_db at h
    injection h with h
    subst h
    exact ⟨hd, hp⟩
  | cons r rs ih =>
    intro st st' h hd hp
    unfold load_db at h
    cases hi : insert_recipe today st r with
    | error e => rw [hi] at h; exact Except.noConfusion h
    | ok st2 =>
      rw [hi] at h
      obtain ⟨row, hrows, hid, hdate, _⟩ := insert_recipe_ok today st r st2 hi
      refine ih st2 st' h ?_ ?_
      · intro x hx
        rw [hrows] at hx
        rcases List.mem_append.mp hx with hx | hx
        · exact hd x hx
        · rw [List.mem_singleton.mp hx]
          exact hdate
      · rw [hrows, List.pairwise_append]
        refine ⟨hp, List.pairwise_singleton _ _, ?_⟩
        intro a ha b hb
        rw [List.mem_singleton.mp hb, hid]
        exact id_lt_next_rowid st a ha

/-- When all rows carry the same `date_added` and rowids ascend in list
order, the summary query returns the rows in list order: the sort by
`date_added` descending (ties rowid ascending) is the identity. -/
theorem query_summaries_of_uniform (st : Store) (today : Int)
    (hd : ∀ r ∈ st.rows, r.date_added = today)
    (hp : List.Pairwise (fun a b : Row => a.id < b.id) st.rows) :
    query_summaries st = st.rows.map summaryOf := by
  unfold query_summaries
  rw [List.Sorted.insertionSort_eq]
  have : List.Pairwise summary_order st.rows := by
    refine List.Pairwise.imp_of_mem ?_ hp
    intro a b ha hb hab
    right
    exact ⟨(hd a ha).trans (hd b hb).symm, Nat.le_of_lt hab⟩
  exact this

/-- Claim C2: every row stored in one build run is stamped with the run's
`today` constant (the document's own `date_added` is ignored), rowids
ascend in insertion order, and `query_summaries` — ordered by
`date_added` descending with ties broken by rowid ascending — therefore
returns exactly the summary projection of the rows in insertion order. -/
theorem c2_date_stamp_and_summary_order (today : Int) (recipes : List TomlTable)
    (st : Store) (h : load_db today ⟨[]⟩ recipes = .ok st) :
    (∀ r ∈ st.rows, r.date_added = today) ∧
    List.Pairwise (fun a b : Row => a.id < b.id) st.rows ∧
    query_summaries st = st.rows.map summaryOf := by
  obtain ⟨hd, hp⟩ := load_db_preserves today recipes ⟨[]⟩ st h
    (by intro r hr; exact absurd hr (List.not_mem_nil r)) List.Pairwise.nil
  exact ⟨hd, hp, query_summaries_of_uniform st today hd hp⟩

/-- A store built from a possibly failing operation (the failure case is
never reached at the concrete inputs where this is used). -/
def store_of (e : Except String Store) : Store :=
  match e with
  | .ok st => st
  | .error _ => ⟨[]⟩

/-- Witness recipes for C2: two already-parsed recipe tables, with
distinct document-declared `date_added` values (both ignored). -/
def c2_recipes : List TomlTable :=
  [[("title", Toml.str "One"), ("date_added", Toml.int 19990101),
    ("author", Toml.str "ann"), ("type", Toml.str "t"),
    ("ingredients", Toml.list [Toml.str "x"]),
    ("directions", Toml.str "do"), ("description", Toml.str "d"),
    ("filename", Toml.str "one")],
   [("title", Toml.str "Two"), ("date_added", Toml.int 20300101),
    ("author", Toml.str "bob"), ("type", Toml.str "t"),
    ("ingredients", Toml.list [Toml.str "y"]),
    ("directions", Toml.str "do"), ("description", Toml.str "d"),
    ("filename", Toml.str "two")]]

def c2_store : Store := store_of (load_db 20251012 ⟨[]⟩ c2_recipes)

/-- Witness for C2 at the two concrete recipes of `c2_recipes`. -/
theorem c2_date_stamp_and_summary_order_witness :
    load_db 20251012 ⟨[]⟩ c2_recipes = .ok c2_store ∧
    ((∀ r ∈ c2_store.rows, r.date_added = 20251012) ∧
     List.Pairwise (fun a b : Row => a.id < b.id) c2_store.rows ∧
     query_summaries c2_store = c2_store.rows.map summaryOf) :=
  ⟨rfl, c2_date_stamp_and_summary_order 20251012 c2_recipes c2_store rfl⟩

/-- A successful parse returns exactly the stamped document. -/
theorem parse_recipe_ok_shape (fname : String) (doc recipe : TomlTable)
    (h : parse_recipe fname doc = .ok recipe) :
    recipe = tset doc "filename" (Toml.str (filename_stem fname)) := by
  unfold parse_recipe validate_recipe at h
  set s := tset doc "filename" (Toml.str (filename_stem fname)) with hs
  cases h1 : first_missing_required s with
  | some f => rw [h1] at h; exact Except.noConfusion h
  | none =>
    rw [h1] at h
    cases h2 : check_nutrition s fname with
    | some e => rw [h2] at h; exact Except.noConfusion h
    | none =>
      rw [h2] at h
      cases h3 : tlookup s "ingredients" with
      | none => rw [h3] at h; exact Except.noConfusion h
      | some t =>
        rw [h3] at h
        cases t with
        | list items =>
          replace h : (if items.length = 0 then
              Except.error "ingredients must not be empty"
            else Except.ok s) = Except.ok recipe := h
          by_cases hlen : items.length = 0
          · rw [if_pos hlen] at h; exact Except.noConfusion h
          · rw [if_neg hlen] at h
            injection h with h
            exact h.symm
        | str v => exact Except.noConfusion h
        | int i => exact Except.noConfusion h
        | bool b => exact Except.noConfusion h
        | table kvs => exact Except.noConfusion h

/-- Document for C5: fully valid, with a `nutrition` table present. -/
def c5_doc : TomlTable :=
  [("title", Toml.str "Pie"), ("date_added", Toml.int 20240105),
   ("author", Toml.str "dot"), ("type", Toml.str "pie"),
   ("ingredients", Toml.list [Toml.str "apple"]),
   ("directions", Toml.str "bake"), ("description", Toml.str "a pie"),
   ("nutrition", Toml.table [("calories", Toml.int 300)])]

/-- Claim C5 evaluated at `c5_doc`: the document validates, but inserting
the validated recipe aborts — the optional-field UPDATE loop binds the
raw `nutrition` table (it never pickles it, unlike `ingredients`), and a
table is not a bindable parameter type. -/
theorem c5_nutrition_insert_fails :
    parse_recipe "recipes/pie.toml" c5_doc =
      .ok (tset c5_doc "filename" (Toml.str "pie")) ∧
    insert_recipe 20251012 ⟨[]⟩ (tset c5_doc "filename" (Toml.str "pie")) =
      .error "InterfaceError: Error binding parameter (nutrition)" :=
  ⟨rfl, rfl⟩

/-- Claim C6: inserting a successfully parsed recipe into any store and
reading it back through the detail query yields an `ingredients` value
equal to the document's original `ingredients` (order and elements
preserved: `pickle_loads` undoes the `pickle_dumps` the insert applied). -/
theorem c6_ingredients_roundtrip (today : Int) (fname : String)
    (doc recipe : TomlTable) (st st' : Store) (ingr : Toml)
    (hp : parse_recipe fname doc = .ok recipe)
    (hins : insert_recipe today st recipe = .ok st')
    (hing : tlookup doc "ingredients" = some ingr) :
    ∃ row, query_details st' = query_details st ++ [row] ∧
      pickle_loads row.ingredients = ingr := by
  obtain ⟨row, hrows, _, _, ingr2, hing2, hblob⟩ :=
    insert_recipe_ok today st recipe st' hins
  have hshape := parse_recipe_ok_shape fname doc recipe hp
  have hsame : tlookup recipe "ingredients" = tlookup doc "ingredients" := by
    rw [hshape]
    exact tlookup_stamp_required doc fname "ingredients" (by decide)
  rw [hsame, hing] at hing2
  injection hing2 with hing2
  refine ⟨row, hrows, ?_⟩
  rw [hblob, hing2]
  rfl

/-- Witness document for C6 (no nutrition, so the insert succeeds; one
bindable optional field to exercise the UPDATE loop). -/
def c6_doc : TomlTable :=
  [("title", Toml.str "Bread"), ("date_added", Toml.int 20240106),
   ("author", Toml.str "eve"), ("type", Toml.str "bread"),
   ("ingredients", Toml.list [Toml.str "flour", Toml.str "water", Toml.str "salt"]),
   ("directions", Toml.str "knead"), ("description", Toml.str "a loaf"),
   ("cook_time", Toml.int 45)]

def c6_store : Store :=
  store_of (insert_recipe 20251012 ⟨[]⟩ (tset c6_doc "filename" (Toml.str "bread")))

/-- Witness for C6 at the concrete document `c6_doc`. -/
theorem c6_ingredients_roundtrip_witness :
    parse_recipe "recipes/bread.toml" c6_doc =
      .ok (tset c6_doc "filename" (Toml.str "bread")) ∧
    insert_recipe 20251012 ⟨[]⟩ (tset c6_doc "filename" (Toml.str "bread")) =
      .ok c6_store ∧
    tlookup c6_doc "ingredients" =
      some (Toml.list [Toml.str "flour", Toml.str "water", Toml.str "salt"]) ∧
    (∃ row, query_details c6_store = query_details (⟨[]⟩ : Store) ++ [row] ∧
      pickle_loads row.ingredients =
        Toml.list [Toml.str "flour", Toml.str "water", Toml.str "salt"]) :=
  ⟨rfl, rfl, rfl,
   c6_ingredients_roundtrip 20251012 "recipes/bread.toml" c6_doc
     (tset c6_doc "filename" (Toml.str "bread")) ⟨[]⟩ c6_store
     (Toml.list [Toml.str "flour", Toml.str "water", Toml.str "salt"]) rfl rfl rfl⟩

/-! ### Build abort (claim C3) -/

theorem parse_recipes_error_of_mem :
    ∀ (docs : List (String × TomlTable)) (d : String × TomlTable) (e0 : String),
      d ∈ docs → parse_recipe d.1 d.2 = .error e0 →
      ∃ e, parse_recipes docs = .error e := by
  intro docs
  induction docs with
  | nil => intro d e0 hd; exact absurd hd (List.not_mem_nil d)
  | cons x xs ih =>
    intro d e0 hd hbad
    unfold parse_recipes
    rcases List.mem_cons.mp hd with h | h
    · subst h
      rw [hbad]
      exact ⟨e0, rfl⟩
    · cases hp : parse_recipe x.1 x.2 with
      | error e => exact ⟨e, rfl⟩
      | ok r =>
        obtain ⟨e, he⟩ := ih d e0 h hbad
        rw [he]
        exact ⟨e, rfl⟩

/-- Claim C3: if any candidate document fails to parse or validate, the
whole run aborts with an error and writes no artifact at all — there is
no skip-and-continue mode. -/
theorem c3_fail_fast (today : Int) (docs : List (String × TomlTable))
    (d : String × TomlTable) (e0 : String)
    (hd : d ∈ docs) (hbad : parse_recipe d.1 d.2 = .error e0) :
    (∃ e, run today docs = .error e) ∧
    written_artifacts (run today docs) = [] := by
  obtain ⟨e, he⟩ := parse_recipes_error_of_mem docs d e0 hd hbad
  have hrun : run today docs = .error e := by
    unfold run
    rw [he]
  exact ⟨⟨e, hrun⟩, by rw [hrun]; rfl⟩

/-- Witness candidate-document list for C3: one valid document followed by
one missing its `author` field. -/
def c3_docs : List (String × TomlTable) :=
  [("recipes/bread.toml", c6_doc), ("recipes/cake.toml", c7_doc)]

/-- Witness for C3: the bad document `c7_doc` aborts the whole run. -/
theorem c3_fail_fast_witness :
    ("recipes/cake.toml", c7_doc) ∈ c3_docs ∧
    parse_recipe "recipes/cake.toml" c7_doc =
      .error ("Required field author not in recipe recipes/cake.toml") ∧
    ((∃ e, run 20251012 c3_docs = .error e) ∧
     written_artifacts (run 20251012 c3_docs) = []) :=
  ⟨List.mem_cons_of_mem _ (List.mem_cons_self _ _), rfl,
   c3_fail_fast 20251012 c3_docs ("recipes/cake.toml", c7_doc)
     "Required field author not in recipe recipes/cake.toml"
     (List.mem_cons_of_mem _ (List.mem_cons_self _ _)) rfl⟩

/-! ### Recipe detail pages (claim C4) -/

/-- Claim C4 (amended): the recipe-page query returns, for every stored
row, exactly the nine selected attributes (id, filename, title,
date_added, author, description, type, ingredients, directions) — not the
optional columns — with `ingredients` deserialized, and each row renders
one artifact named `recipe_<filename>.html` with that record as context. -/
theorem c4_detail_context_amended (st : Store) :
    write_recipe_pages st = st.rows.map (fun r =>
      { template := "recipe.html",
        filename := "recipe_" ++ sql_text r.filename ++ ".html",
        context :=
          [("id", CtxValue.sql (SQLValue.int (Int.ofNat r.id))),
           ("filename", CtxValue.sql r.filename),
           ("title", CtxValue.sql r.title),
           ("date_added", CtxValue.sql (SQLValue.int r.date_added)),
           ("author", CtxValue.sql r.author),
           ("description", CtxValue.sql r.description),
           ("type", CtxValue.sql r.type),
           ("ingredients", CtxValue.obj (pickle_loads r.ingredients)),
           ("directions", CtxValue.sql r.directions)] }) ∧
    (write_recipe_pages st).map (fun a => a.context.map Prod.fst) =
      st.rows.map (fun _ =>
        ["id", "filename", "title", "date_added", "author", "description", "type",
         "ingredients", "directions"]) := by
  constructor
  · rfl
  · simp only [write_recipe_pages, query_details, detail_context, List.map_map]
    rfl

/-- Counterexample recipe for C4: valid, already stamped, with the
optional `cook_time` and `serving_size` fields present. -/
def c4_recipe : TomlTable :=
  [("title", Toml.str "Roast"), ("date_added", Toml.int 20240107),
   ("author", Toml.str "fay"), ("type", Toml.str "roast"),
   ("ingredients", Toml.list [Toml.str "beet"]),
   ("directions", Toml.str "roast it"), ("description", Toml.str "a roast"),
   ("filename", Toml.str "roast"),
   ("cook_time", Toml.int 90), ("serving_size", Toml.str "4")]

def c4_store : Store := store_of (insert_recipe 20251012 ⟨[]⟩ c4_recipe)

/-- Counterexample for C4 as stated: the stored row carries `cook_time`
and `serving_size`, but the recipe page's render context has no such
attributes — the detail SELECT omits every optional column. -/
theorem c4_counterexample :
    c4_store.rows.map (fun r => r.cook_time) = [SQLValue.int 90] ∧
    c4_store.rows.map (fun r => r.serving_size) = [SQLValue.text "4"] ∧
    (write_recipe_pages c4_store).map (fun a => a.context.map Prod.fst) =
      [["id", "filename", "title", "date_added", "author", "description", "type",
        "ingredients", "directions"]] ∧
    ¬ "cook_time" ∈ ["id", "filename", "title", "date_added", "author", "description",
        "type", "ingredients", "directions"] ∧
    ¬ "serving_size" ∈ ["id", "filename", "title", "date_added", "author",
        "description", "type", "ingredients", "directions"] :=
  ⟨rfl, rfl, rfl, by decide, by decide⟩

/-! ### Reader enumeration order and front pages (claim C10) -/

/-- A list that fits in one page chunks to a single page. -/
theorem chunk_eq_single (l : List α) (n : Nat) (hn : ¬ n = 0) (hl : ¬ l = [])
    (hlen : l.length ≤ n) : chunk l n = [l] := by
  cases l with
  | nil => exact absurd rfl hl
  | cons x xs =>
    rw [chunk_cons x xs n hn, List.drop_eq_nil_of_le hlen, chunk_nil,
      List.take_of_length_le hlen]

def c10_tableA : TomlTable :=
  [("title", Toml.str "Alpha"), ("date_added", Toml.int 20240108),
   ("author", Toml.str "gil"), ("type", Toml.str "misc"),
   ("ingredients", Toml.list [Toml.str "a"]),
   ("directions", Toml.str "mix"), ("description", Toml.str "da")]

def c10_tableB : TomlTable :=
  [("title", Toml.str "Beta"), ("date_added", Toml.int 20240109),
   ("author", Toml.str "hal"), ("type", Toml.str "misc"),
   ("ingredients", Toml.list [Toml.str "b"]),
   ("directions", Toml.str "stir"), ("description", Toml.str "db")]

/-- The same two valid documents, in the two reader enumeration orders. -/
def c10_docs1 : List (String × TomlTable) :=
  [("recipes/alpha.toml", c10_tableA), ("recipes/beta.toml", c10_tableB)]

def c10_docs2 : List (String × TomlTable) :=
  [("recipes/beta.toml", c10_tableB), ("recipes/alpha.toml", c10_tableA)]

def recipes_of (e : Except String (List TomlTable)) : List TomlTable :=
  match e with
  | .ok rs => rs
  | .error _ => []

def c10_store1 : Store :=
  store_of (load_db 20251012 ⟨[]⟩ (recipes_of (parse_recipes c10_docs1)))

def c10_store2 : Store :=
  store_of (load_db 20251012 ⟨[]⟩ (recipes_of (parse_recipes c10_docs2)))

/-- The front-page artifacts of a run. -/
def front_artifacts (res : Except String (List Artifact)) : List Artifact :=
  (written_artifacts res).filter (fun a => a.template == "front_page.html")

/-- The title of the first summary on the first front page, when it is a
text value. -/
def first_front_title (arts : List Artifact) : Option String :=
  match arts with
  | [] => none
  | a :: _ =>
    match a.context.find? (fun p => p.1 == "recipes") with
    | some (_, CtxValue.summaries (s :: _)) =>
      match s.title with
      | SQLValue.text t => some t
      | _ => none
    | _ => none

/-- Counterexample for C10 as stated: the same two valid documents,
enumerated in the two orders, yield different front-page artifacts — all
rows share the build-day `date_added`, so the summary sort leaves the
reader's enumeration order intact on the front page. -/
theorem c10_counterexample :
    front_artifacts (run 20251012 c10_docs1) ≠ front_artifacts (run 20251012 c10_docs2) := by
  have hrun1 : run 20251012 c10_docs1 = .ok (write_site c10_store1) := rfl
  have hrun2 : run 20251012 c10_docs2 = .ok (write_site c10_store2) := rfl
  have hch1 : chunk (query_summaries c10_store1) RECIPES_PER_PAGE =
      [query_summaries c10_store1] :=
    chunk_eq_single _ _ (by decide)
      (fun h => absurd (congrArg List.length h) (by decide)) (by decide)
  have hch2 : chunk (query_summaries c10_store2) RECIPES_PER_PAGE =
      [query_summaries c10_store2] :=
    chunk_eq_single _ _ (by decide)
      (fun h => absurd (congrArg List.length h) (by decide)) (by decide)
  have hf1 : front_artifacts (run 20251012 c10_docs1) =
      [write_front_page (query_summaries c10_store1) 1 1] := by
    rw [hrun1]
    unfold front_artifacts written_artifacts write_site write_front_pages
    rw [hch1]
    rfl
  have hf2 : front_artifacts (run 20251012 c10_docs2) =
      [write_front_page (query_summaries c10_store2) 1 1] := by
    rw [hrun2]
    unfold front_artifacts written_artifacts write_site write_front_pages
    rw [hch2]
    rfl
  intro h
  rw [hf1, hf2] at h
  have h2 := congrArg first_front_title h
  rw [show first_front_title [write_front_page (query_summaries c10_store1) 1 1] =
        some "Alpha" from rfl,
      show first_front_title [write_front_page (query_summaries c10_store2) 1 1] =
        some "Beta" from rfl] at h2
  exact absurd h2 (by decide)

theorem set_column_id_comm (row : Row) (f : String) (v : SQLValue) (n : Nat) :
    set_column { row with id := n } f v = { set_column row f v with id := n } := by
  unfold set_column
  split_ifs <;> rfl

theorem ok_bind {α β : Type} (a : α) (f : α → Except String β) :
    (Except.ok a >>= f) = f a := rfl

theorem error_bind {α β : Type} (e : String) (f : α → Except String β) :
    ((Except.error e : Except String α) >>= f) = Except.error e := rfl

theorem except_map_error {α β : Type} (f : α → β) (e : String) :
    Except.map f (Except.error e : Except String α) = Except.error e := rfl

theorem except_map_ok {α β : Type} (f : α → β) (a : α) :
    Except.map f (Except.ok a : Except String α) = Except.ok (f a) := rfl

/-- The optional-field UPDATE loop commutes with changing the rowid. -/
theorem apply_optional_updates_id :
    ∀ (fs : List String) (recipe : TomlTable) (row : Row) (n : Nat),
      apply_optional_updates fs recipe { row with id := n } =
        Except.map (fun r => { r with id := n }) (apply_optional_updates fs recipe row) := by
  intro fs
  induction fs with
  | nil => intros; rfl
  | cons f fs ih =>
    intro recipe row n
    show (match tlookup recipe f with
      | none => apply_optional_updates fs recipe { row with id := n }
      | some v =>
        match bindValue v with
        | none => Except.error ("InterfaceError: Error binding parameter (" ++ f ++ ")")
        | some sv => apply_optional_updates fs recipe (set_column { row with id := n } f sv)) =
      Except.map (fun r => { r with id := n })
        (match tlookup recipe f with
         | none => apply_optional_updates fs recipe row
         | some v =>
           match bindValue v with
           | none => Except.error ("InterfaceError: Error binding parameter (" ++ f ++ ")")
           | some sv => apply_optional_updates fs recipe (set_column row f sv))
    cases tlookup recipe f with
    | none => exact ih recipe row n
    | some v =>
      show (match bindValue v with
        | none => Except.error ("InterfaceError: Error binding parameter (" ++ f ++ ")")
        | some sv =>
          apply_optional_updates fs recipe (set_column { row with id := n } f sv)) =
        Except.map (fun r => { r with id := n })
          (match bindValue v with
           | none => Except.error ("InterfaceError: Error binding parameter (" ++ f ++ ")")
           | some sv => apply_optional_updates fs recipe (set_column row f sv))
      cases bindValue v with
      | none => rfl
      | some sv =>
        show apply_optional_updates fs recipe (set_column { row with id := n } f sv) =
          Except.map (fun r => { r with id := n })
            (apply_optional_updates fs recipe (set_column row f sv))
        rw [set_column_id_comm]
        exact ih recipe (set_column row f sv) n

/-- The row an insert builds does not depend on the assigned rowid except
in its `id` field. -/
theorem build_row_id_invariant (today : Int) (recipe : TomlTable) (rid rid' : Nat) :
    build_row today recipe rid =
      Except.map (fun row => { row with id := rid }) (build_row today recipe rid') := by
  unfold build_row
  cases h1 : dict_get recipe "title" with
  | error e => simp only [error_bind, except_map_error]
  | ok title =>
  simp only [ok_bind]
  cases h2 : dict_get recipe "author" with
  | error e => simp only [error_bind, except_map_error]
  | ok author =>
  simp only [ok_bind]
  cases h3 : dict_get recipe "type" with
  | error e => simp only [error_bind, except_map_error]
  | ok ty =>
  simp only [ok_bind]
  cases h4 : dict_get recipe "ingredients" with
  | error e => simp only [error_bind, except_map_error]
  | ok ingredients =>
  simp only [ok_bind]
  cases h5 : dict_get recipe "directions" with
  | error e => simp only [error_bind, except_map_error]
  | ok directions =>
  simp only [ok_bind]
  cases h6 : dict_get recipe "description" with
  | error e => simp only [error_bind, except_map_error]
  | ok description =>
  simp only [ok_bind]
  cases h7 : dict_get recipe "filename" with
  | error e => simp only [error_bind, except_map_error]
  | ok filename =>
  simp only [ok_bind]
  cases h8 : bind_param title "title" with
  | error e => simp only [error_bind, except_map_error]
  | ok tv =>
  simp only [ok_bind]
  cases h9 : bind_param author "author" with
  | error e => simp only [error_bind, except_map_error]
  | ok av =>
  simp only [ok_bind]
  cases h10 : bind_param ty "type" with
  | error e => simp only [error_bind, except_map_error]
  | ok tyv =>
  simp only [ok_bind]
  cases h11 : bind_param directions "directions" with
  | error e => simp only [error_bind, except_map_error]
  | ok dv =>
  simp only [ok_bind]
  cases h12 : bind_param description "description" with
  | error e => simp only [error_bind, except_map_error]
  | ok dsv =>
  simp only [ok_bind]
  cases h13 : bind_param filename "filename" with
  | error e => simp only [error_bind, except_map_error]
  | ok fv =>
  simp only [ok_bind]
  exact apply_optional_updates_id OPTIONAL_RECIPE_FIELDS recipe
    { id := rid', filename := fv, title := tv, date_added := today, author := av,
      type := tyv, description := dsv, ingredients := pickle_dumps ingredients,
      directions := dv } rid

/-- A summary with the store-assigned identity erased. -/
def summary_sans_id (s : SummaryRow) : SQLValue × SQLValue × Int × SQLValue × SQLValue :=
  (s.filename, s.title, s.date_added, s.author, s.description)

/-- The identity-erased summary a recipe would produce, when its insert
succeeds. -/
def built_sans_id (today : Int) (recipe : TomlTable) :
    Option (SQLValue × SQLValue × Int × SQLValue × SQLValue) :=
  match build_row today recipe 0 with
  | .ok row => some (summary_sans_id (summaryOf row))
  | .error _ => none

/-- A successful load appends one row per recipe, in order, whose
identity-erased summaries are determined by the recipes alone. -/
theorem load_db_rows (today : Int) :
    ∀ (rs : List TomlTable) (st st' : Store),
      load_db today st rs = .ok st' →
      ∃ news : List Row, st'.rows = st.rows ++ news ∧
        news.map (fun r => summary_sans_id (summaryOf r)) =
          rs.filterMap (built_sans_id today) ∧
        news.length = rs.length := by
  intro rs
  induction rs with
  | nil =>
    intro st st' h
    unfold load_db at h
    injection h with h
    subst h
    exact ⟨[], by simp, rfl, rfl⟩
  | cons r rs ih =>
    intro st st' h
    unfold load_db at h
    cases hi : insert_recipe today st r with
    | error e => rw [hi] at h; exact Except.noConfusion h
    | ok st2 =>
      rw [hi] at h
      obtain ⟨news, hrows2, hmap, hlen⟩ := ih st2 st' h
      unfold insert_recipe at hi
      cases hb : build_row today r (next_rowid st) with
      | error e => rw [hb] at hi; exact Except.noConfusion hi
      | ok row =>
        rw [hb] at hi
        injection hi with hi
        have hb0 : build_row today r 0 = .ok { row with id := 0 } := by
          rw [build_row_id_invariant today r 0 (next_rowid st), hb]
          rfl
        have hbs : built_sans_id today r = some (summary_sans_id (summaryOf row)) := by
          unfold built_sans_id
          rw [hb0]
          rfl
        refine ⟨row :: news, ?_, ?_, ?_⟩
        · rw [hrows2, ← hi]
          simp
        · simp only [List.map_cons, List.filterMap_cons, hbs, hmap]
        · simp [hlen]

/-- A successful load means every recipe's row builds successfully. -/
theorem load_db_all_build_ok (today : Int) :
    ∀ (rs : List TomlTable) (st st' : Store),
      load_db today st rs = .ok st' →
      ∀ r ∈ rs, ∃ row, build_row today r 0 = .ok row := by
  intro rs
  induction rs with
  | nil => intro st st' _ r hr; exact absurd hr (List.not_mem_nil r)
  | cons x xs ih =>
    intro st st' h r hr
    unfold load_db at h
    cases hi : insert_recipe today st x with
    | error e => rw [hi] at h; exact Except.noConfusion h
    | ok st2 =>
      rw [hi] at h
      rcases List.mem_cons.mp hr with hh | hh
      · subst hh
        unfold insert_recipe at hi
        cases hb : build_row today r (next_rowid st) with
        | error e => rw [hb] at hi; exact Except.noConfusion hi
        | ok row =>
          refine ⟨{ row with id := 0 }, ?_⟩
          rw [build_row_id_invariant today r 0 (next_rowid st), hb]
          rfl
      · exact ih st2 st' h r hh

/-- When every recipe's row builds, the whole load succeeds. -/
theorem load_db_ok_of_all (today : Int) :
    ∀ (rs : List TomlTable) (st : Store),
      (∀ r ∈ rs, ∃ row, build_row today r 0 = .ok row) →
      ∃ st', load_db today st rs = .ok st' := by
  intro rs
  induction rs with
  | nil => intro st _; exact ⟨st, rfl⟩
  | cons x xs ih =>
    intro st hall
    obtain ⟨row0, hb0⟩ := hall x (List.mem_cons_self x xs)
    have hb : build_row today x (next_rowid st) = .ok { row0 with id := next_rowid st } := by
      rw [build_row_id_invariant today x (next_rowid st) 0, hb0]
      rfl
    obtain ⟨st', hst'⟩ := ih ⟨st.rows ++ [{ row0 with id := next_rowid st }]⟩
      (fun r hr => hall r (List.mem_cons_of_mem x hr))
    refine ⟨st', ?_⟩
    unfold load_db insert_recipe
    rw [hb]
    exact hst'

/-- The parse of one candidate document, as an optional result. -/
def parsed_of (d : String × TomlTable) : Option TomlTable :=
  match parse_recipe d.1 d.2 with
  | .ok r => some r
  | .error _ => none

/-- A successful `parse_recipes` parses each document, in order. -/
theorem parse_recipes_ok_shape :
    ∀ (docs : List (String × TomlTable)) (rs : List TomlTable),
      parse_recipes docs = .ok rs →
      rs = docs.filterMap parsed_of ∧ ∀ d ∈ docs, ∃ r, parse_recipe d.1 d.2 = .ok r := by
  intro docs
  induction docs with
  | nil =>
    intro rs h
    unfold parse_recipes at h
    injection h with h
    subst h
    exact ⟨rfl, fun d hd => absurd hd (List.not_mem_nil d)⟩
  | cons x xs ih =>
    intro rs h
    unfold parse_recipes at h
    cases hp : parse_recipe x.1 x.2 with
    | error e => rw [hp] at h; exact Except.noConfusion h
    | ok r =>
      rw [hp] at h
      replace h : (match parse_recipes xs with
        | .error e => Except.error e
        | .ok rs2 => Except.ok (r :: rs2)) = Except.ok rs := h
      cases hps : parse_recipes xs with
      | error e => rw [hps] at h; exact Except.noConfusion h
      | ok rs2 =>
        rw [hps] at h
        injection h with h
        obtain ⟨h1, h2⟩ := ih rs2 hps
        have hpx : parsed_of x = some r := by
          unfold parsed_of
          rw [hp]
        constructor
        · rw [← h, h1]
          simp only [List.filterMap_cons, hpx]
        · intro d hd
          rcases List.mem_cons.mp hd with hh | hh
          · subst hh
            exact ⟨r, hp⟩
          · exact h2 d hh

/-- When each document parses, `parse_recipes` succeeds with the parses
in order. -/
theorem parse_recipes_ok_of_all :
    ∀ (docs : List (String × TomlTable)),
      (∀ d ∈ docs, ∃ r, parse_recipe d.1 d.2 = .ok r) →
      parse_recipes docs = .ok (docs.filterMap parsed_of) := by
  intro docs
  induction docs with
  | nil => intro _; rfl
  | cons x xs ih =>
    intro hall
    obtain ⟨r, hr⟩ := hall x (List.mem_cons_self x xs)
    have hpx : parsed_of x = some r := by
      unfold parsed_of
      rw [hr]
    have hxs : parse_recipes xs = .ok (xs.filterMap parsed_of) :=
      ih (fun d hd => hall d (List.mem_cons_of_mem x hd))
    unfold parse_recipes
    rw [hr]
    show (match parse_recipes xs with
      | .error e => Except.error e
      | .ok rs2 => Except.ok (r :: rs2)) = Except.ok ((x :: xs).filterMap parsed_of)
    rw [hxs, List.filterMap_cons, hpx]

/-- Claim C10 (amended): two runs over the same documents in different
reader orders both succeed and agree on the number of summaries, the
multiset of identity-erased summaries, and the number of front pages —
but the order of summaries on the front pages follows the reader's
enumeration order (every row shares the build-day `date_added`, so the
sort never reorders), and the artifacts are not identical in general. -/
theorem c10_reader_order_amended (today : Int)
    (docs1 docs2 : List (String × TomlTable)) (rs1 : List TomlTable) (st1 : Store)
    (hperm : docs2.Perm docs1)
    (hp1 : parse_recipes docs1 = .ok rs1)
    (hl1 : load_db today ⟨[]⟩ rs1 = .ok st1) :
    ∃ rs2 st2, parse_recipes docs2 = .ok rs2 ∧ load_db today ⟨[]⟩ rs2 = .ok st2 ∧
      rs2.Perm rs1 ∧
      (query_summaries st2).length = (query_summaries st1).length ∧
      ((query_summaries st2).map summary_sans_id).Perm
        ((query_summaries st1).map summary_sans_id) ∧
      (chunk (query_summaries st2) RECIPES_PER_PAGE).length =
        (chunk (query_summaries st1) RECIPES_PER_PAGE).length := by
  obtain ⟨hrs1, hall1⟩ := parse_recipes_ok_shape docs1 rs1 hp1
  have hall2 : ∀ d ∈ docs2, ∃ r, parse_recipe d.1 d.2 = .ok r :=
    fun d hd => hall1 d (hperm.mem_iff.mp hd)
  have hp2 : parse_recipes docs2 = .ok (docs2.filterMap parsed_of) :=
    parse_recipes_ok_of_all docs2 hall2
  have hrs2perm : (docs2.filterMap parsed_of).Perm rs1 := by
    rw [hrs1]
    exact hperm.filterMap parsed_of
  have hbuild1 : ∀ r ∈ rs1, ∃ row, build_row today r 0 = .ok row :=
    load_db_all_build_ok today rs1 ⟨[]⟩ st1 hl1
  have hbuild2 : ∀ r ∈ docs2.filterMap parsed_of, ∃ row, build_row today r 0 = .ok row :=
    fun r hr => hbuild1 r (hrs2perm.mem_iff.mp hr)
  obtain ⟨st2, hl2⟩ := load_db_ok_of_all today (docs2.filterMap parsed_of) ⟨[]⟩ hbuild2
  have hnil : ∀ r ∈ (⟨[]⟩ : Store).rows, r.date_added = today :=
    fun r hr => absurd hr (List.not_mem_nil r)
  obtain ⟨hd1, hpw1⟩ := load_db_preserves today rs1 ⟨[]⟩ st1 hl1 hnil List.Pairwise.nil
  obtain ⟨hd2, hpw2⟩ := load_db_preserves today (docs2.filterMap parsed_of) ⟨[]⟩ st2 hl2
    hnil List.Pairwise.nil
  have hq1 : query_summaries st1 = st1.rows.map summaryOf :=
    query_summaries_of_uniform st1 today hd1 hpw1
  have hq2 : query_summaries st2 = st2.rows.map summaryOf :=
    query_summaries_of_uniform st2 today hd2 hpw2
  obtain ⟨news1, hrows1, hmap1, hlen1⟩ := load_db_rows today rs1 ⟨[]⟩ st1 hl1
  obtain ⟨news2, hrows2, hmap2, hlen2⟩ :=
    load_db_rows today (docs2.filterMap parsed_of) ⟨[]⟩ st2 hl2
  have hlenq : (query_summaries st2).length = (query_summaries st1).length := by
    rw [hq1, hq2]
    simp only [List.length_map]
    rw [hrows1, hrows2]
    simp only [List.nil_append]
    rw [hlen1, hlen2]
    exact hrs2perm.length_eq
  refine ⟨docs2.filterMap parsed_of, st2, hp2, hl2, hrs2perm, hlenq, ?_, ?_⟩
  · rw [hq1, hq2, List.map_map, List.map_map]
    have h1 : st1.rows.map (summary_sans_id ∘ summaryOf) =
        rs1.filterMap (built_sans_id today) := by
      rw [hrows1]
      simp only [List.nil_append]
      exact hmap1
    have h2 : st2.rows.map (summary_sans_id ∘ summaryOf) =
        (docs2.filterMap parsed_of).filterMap (built_sans_id today) := by
      rw [hrows2]
      simp only [List.nil_append]
      exact hmap2
    rw [h1, h2]
    exact hrs2perm.filterMap (built_sans_id today)
  · have h10 : 0 < RECIPES_PER_PAGE := by decide
    rw [chunk_length _ _ h10, chunk_length _ _ h10, hlenq]

/-- Witness for the amended C10 at the two-document lists
`c10_docs1`/`c10_docs2`. -/
theorem c10_reader_order_amended_witness :
    ∃ rs2 st2, parse_recipes c10_docs2 = .ok rs2 ∧
      load_db 20251012 ⟨[]⟩ rs2 = .ok st2 ∧
      rs2.Perm (recipes_of (parse_recipes c10_docs1)) ∧
      (query_summaries st2).length = (query_summaries c10_store1).length ∧
      ((query_summaries st2).map summary_sans_id).Perm
        ((query_summaries c10_store1).map summary_sans_id) ∧
      (chunk (query_summaries st2) RECIPES_PER_PAGE).length =
        (chunk (query_summaries c10_store1) RECIPES_PER_PAGE).length :=
  c10_reader_order_amended 20251012 c10_docs1 c10_docs2
    (recipes_of (parse_recipes c10_docs1)) c10_store1
    (List.Perm.swap _ _ _) rfl rfl

end Cltrecipes
